import Mathlib

/-!
Verification development for the sales_coach repository.

We shallowly embed the request handlers and helpers of the backend
(`index.ts` variants, `ask.ts`) and the client-side suggestion
categorizer (`askApi.ts`), and prove the specified properties about
them.  External services (embedding provider, vector store, language
model) are modelled as function parameters returning `Except` values.
-/

namespace SalesCoach

/-- JavaScript whitespace class (the characters matched by a bare
regex `\s` and trimmed by `String.prototype.trim`). -/
def jsIsSpace (c : Char) : Bool :=
  c == ' ' || c == '\t' || c == '\n' || c == '\r' || c == '\x0b' ||
  c == '\x0c' || c == '\u00A0' || c == '\u1680' ||
  (('\u2000' ≤ c) && (c ≤ '\u200A')) ||
  c == '\u2028' || c == '\u2029' || c == '\u202F' || c == '\u205F' ||
  c == '\u3000' || c == '\uFEFF'

/-- JavaScript `String.prototype.trim`: strip `jsIsSpace` characters
from both ends. -/
def jsTrim (s : String) : String :=
  String.mk (((s.data.dropWhile jsIsSpace).reverse.dropWhile jsIsSpace).reverse)

/-- `true` when a string is empty after a JavaScript trim (the
`!chunk.trim()` test used to skip blank chunks). -/
def jsBlank (s : String) : Bool :=
  (jsTrim s) == ""

/-- Does the second character list start with the first? -/
def startsWithChars : List Char → List Char → Bool
  | [], _ => true
  | _ :: _, [] => false
  | p :: ps, c :: cs => p == c && startsWithChars ps cs

/-- Worker for JavaScript `String.prototype.split` with a non-empty
string separator: cut at every leftmost, non-overlapping occurrence.
`fuel` bounds the recursion and never runs out when it starts at the
length of the input. -/
def jsSplitAux (sep : List Char) : Nat → List Char → List Char → List (List Char)
  | 0, acc, _ => [acc.reverse]
  | _ + 1, acc, [] => [acc.reverse]
  | fuel + 1, acc, c :: cs =>
    if startsWithChars sep (c :: cs) then
      acc.reverse :: jsSplitAux sep fuel [] ((c :: cs).drop sep.length)
    else
      jsSplitAux sep fuel (c :: acc) cs

/-- JavaScript `s.split(sep)` for a non-empty string separator. -/
def jsSplit (s sep : String) : List String :=
  (jsSplitAux sep.data s.data.length [] s.data).map String.mk

/-- JavaScript `String.prototype.includes` for a fixed non-empty
needle, via `split`: the needle occurs iff splitting on it yields
more than one piece. -/
def containsSub (s sub : String) : Bool :=
  (jsSplit s sub).length != 1

/-- JavaScript `Array.prototype.join`. -/
def jsJoin (sep : String) : List String → String
  | [] => ""
  | [s] => s
  | s :: t :: rest => s ++ sep ++ jsJoin sep (t :: rest)

/-- ASCII decimal digit, the regex class `\d`. -/
def isDecDigit (c : Char) : Bool :=
  '0' ≤ c && c ≤ '9'

/-- Length of a match of the regex `\d+\.\s+` anchored at the head of
the character list, or `none` when there is no match there.  (The
greedy `\d+` needs no backtracking: shortening it leaves a digit where
the literal dot must be.) -/
def numMarkerMatch (cs : List Char) : Option Nat :=
  if (cs.takeWhile isDecDigit).isEmpty then none
  else
    match cs.drop (cs.takeWhile isDecDigit).length with
    | [] => none
    | c :: rest =>
      if c == '.' then
        if (rest.takeWhile jsIsSpace).isEmpty then none
        else some ((cs.takeWhile isDecDigit).length + 1 +
          (rest.takeWhile jsIsSpace).length)
      else none

lemma numMarkerMatch_pos {cs : List Char} {n : Nat}
    (h : numMarkerMatch cs = some n) : 0 < n := by
  unfold numMarkerMatch at h
  split at h
  · simp at h
  · split at h
    · simp at h
    · split at h
      · split at h
        · simp at h
        · injection h with h
          omega
      · simp at h

/-- Worker for the JavaScript split on the regex `\d+\.\s+`: scan left
to right, cutting at every (leftmost, non-overlapping) match.  `fuel`
bounds the recursion; it never runs out when it starts at the length
of the input. -/
def numSplitAux : Nat → List Char → List Char → List (List Char)
  | 0, acc, _ => [acc.reverse]
  | _ + 1, acc, [] => [acc.reverse]
  | fuel + 1, acc, c :: cs =>
    match numMarkerMatch (c :: cs) with
    | some n => acc.reverse :: numSplitAux fuel [] ((c :: cs).drop n)
    | none => numSplitAux fuel (c :: acc) cs

/-- JavaScript `answer.split(/\d+\.\s+/)`. -/
def numericSplit (s : String) : List String :=
  (numSplitAux s.data.length [] s.data).map String.mk

/-! ### Decimal rendering of numbers

JavaScript template literals render `Date.now()` and array indices in
decimal; we embed that rendering with a fuel-driven digit expansion so
that it evaluates by `rfl`. -/

/-- The character for one decimal digit value. -/
def decDigit (d : Nat) : Char :=
  if d = 0 then '0' else if d = 1 then '1' else if d = 2 then '2'
  else if d = 3 then '3' else if d = 4 then '4' else if d = 5 then '5'
  else if d = 6 then '6' else if d = 7 then '7' else if d = 8 then '8'
  else '9'

/-- Digit expansion worker: prepend the decimal digits of `n` to
`acc`, most significant first.  `fuel` only bounds the recursion; any
`fuel ≥ n` gives the true digits. -/
def decDigitsAux : Nat → Nat → List Nat → List Nat
  | 0, n, acc => n :: acc
  | fuel + 1, n, acc =>
    if n < 10 then n :: acc
    else decDigitsAux fuel (n / 10) (n % 10 :: acc)

/-- Decimal digits of `n`, most significant first. -/
def decDigits (n : Nat) : List Nat :=
  decDigitsAux n n []

/-- Decimal rendering of a natural number. -/
def natDec (n : Nat) : String :=
  String.mk ((decDigits n).map decDigit)

lemma decDigitsAux_succ_large {f n : Nat} (h : ¬ n < 10) (acc : List Nat) :
    decDigitsAux (f + 1) n acc = decDigitsAux f (n / 10) (n % 10 :: acc) := by
  simp [decDigitsAux, h]

lemma decDigits_small {n : Nat} (h : n < 10) : decDigits n = [n] := by
  cases n with
  | zero => rfl
  | succ m => simp [decDigits, decDigitsAux, h]

lemma decDigitsAux_eq_decDigits_append :
    ∀ n, ∀ fuel acc, n ≤ fuel → decDigitsAux fuel n acc = decDigits n ++ acc := by
  intro n
  induction n using Nat.strong_induction_on with
  | _ n ih =>
    intro fuel acc hle
    by_cases hsmall : n < 10
    · have hL : decDigitsAux fuel n acc = n :: acc := by
        cases fuel with
        | zero => rfl
        | succ f => simp [decDigitsAux, hsmall]
      rw [hL, decDigits_small hsmall]
      rfl
    · have h10 : 10 ≤ n := Nat.le_of_not_lt hsmall
      have hdivlt : n / 10 < n := Nat.div_lt_self (by omega) (by omega)
      obtain ⟨f, rfl⟩ : ∃ f, fuel = f + 1 := ⟨fuel - 1, by omega⟩
      obtain ⟨m, rfl⟩ : ∃ m, n = m + 1 := ⟨n - 1, by omega⟩
      have hR : decDigits (m + 1)
          = decDigitsAux m ((m + 1) / 10) [(m + 1) % 10] := by
        unfold decDigits
        exact decDigitsAux_succ_large hsmall []
      calc decDigitsAux (f + 1) (m + 1) acc
          = decDigitsAux f ((m + 1) / 10) ((m + 1) % 10 :: acc) :=
            decDigitsAux_succ_large hsmall acc
        _ = decDigits ((m + 1) / 10) ++ ((m + 1) % 10 :: acc) :=
            ih ((m + 1) / 10) hdivlt f _ (by omega)
        _ = (decDigits ((m + 1) / 10) ++ [(m + 1) % 10]) ++ acc := by
            simp
        _ = decDigitsAux m ((m + 1) / 10) [(m + 1) % 10] ++ acc := by
            rw [ih ((m + 1) / 10) hdivlt m [(m + 1) % 10] (by omega)]
        _ = decDigits (m + 1) ++ acc := by rw [hR]

/-- Value of a digit list read in base ten. -/
def decVal (ds : List Nat) : Nat :=
  ds.foldl (fun a d => 10 * a + d) 0

lemma decVal_append_single (ds : List Nat) (d : Nat) :
    decVal (ds ++ [d]) = 10 * decVal ds + d := by
  simp [decVal, List.foldl_append]

lemma decDigits_large {n : Nat} (h : 10 ≤ n) :
    decDigits n = decDigits (n / 10) ++ [n % 10] := by
  obtain ⟨m, rfl⟩ : ∃ m, n = m + 1 := ⟨n - 1, by omega⟩
  have hns : ¬ (m + 1 < 10) := by omega
  show decDigitsAux (m + 1) (m + 1) [] = _
  rw [decDigitsAux_succ_large hns []]
  exact decDigitsAux_eq_decDigits_append ((m + 1) / 10) m _ (by omega)

lemma decVal_decDigits (n : Nat) : decVal (decDigits n) = n := by
  induction n using Nat.strong_induction_on with
  | _ n ih =>
    by_cases h : n < 10
    · rw [decDigits_small h]
      simp [decVal]
    · have h10 : 10 ≤ n := Nat.le_of_not_lt h
      rw [decDigits_large h10, decVal_append_single,
        ih (n / 10) (Nat.div_lt_self (by omega) (by omega))]
      omega

lemma decDigits_inj {a b : Nat} (h : decDigits a = decDigits b) : a = b := by
  have := congrArg decVal h
  rwa [decVal_decDigits, decVal_decDigits] at this

lemma decDigits_lt (n : Nat) : ∀ d ∈ decDigits n, d < 10 := by
  induction n using Nat.strong_induction_on with
  | _ n ih =>
    by_cases h : n < 10
    · rw [decDigits_small h]
      intro d hd
      simp at hd
      omega
    · have h10 : 10 ≤ n := Nat.le_of_not_lt h
      rw [decDigits_large h10]
      intro d hd
      rcases List.mem_append.mp hd with hl | hr
      · exact ih (n / 10) (Nat.div_lt_self (by omega) (by omega)) d hl
      · simp at hr
        omega

lemma decDigit_isDecDigit (d : Nat) : isDecDigit (decDigit d) = true := by
  unfold decDigit
  split_ifs <;> decide

lemma decDigit_ne_dash (d : Nat) : decDigit d ≠ '-' := by
  intro h
  have := decDigit_isDecDigit d
  rw [h] at this
  exact absurd this (by decide)

lemma decDigit_inj_lt {a b : Nat} (ha : a < 10) (hb : b < 10)
    (h : decDigit a = decDigit b) : a = b := by
  interval_cases a <;> interval_cases b <;> revert h <;> decide

lemma map_decDigit_inj : ∀ (xs ys : List Nat), (∀ d ∈ xs, d < 10) →
    (∀ d ∈ ys, d < 10) → xs.map decDigit = ys.map decDigit → xs = ys := by
  intro xs
  induction xs with
  | nil =>
    intro ys _ _ h
    cases ys with
    | nil => rfl
    | cons y ys => simp at h
  | cons x xs ih =>
    intro ys hx hy h
    cases ys with
    | nil => simp at h
    | cons y ys =>
      simp only [List.map_cons, List.cons.injEq] at h
      have hxy : x = y := decDigit_inj_lt
        (hx x (List.mem_cons_self x xs)) (hy y (List.mem_cons_self y ys)) h.1
      have htail : xs = ys := ih ys
        (fun d hd => hx d (List.mem_cons_of_mem x hd))
        (fun d hd => hy d (List.mem_cons_of_mem y hd)) h.2
      rw [hxy, htail]

lemma natDec_inj {a b : Nat} (h : natDec a = natDec b) : a = b := by
  unfold natDec at h
  have hdata : (decDigits a).map decDigit = (decDigits b).map decDigit := by
    exact congrArg String.data h
  exact decDigits_inj
    (map_decDigit_inj _ _ (decDigits_lt a) (decDigits_lt b) hdata)

lemma dash_not_mem_natDec (n : Nat) : '-' ∉ (natDec n).data := by
  intro h
  unfold natDec at h
  rcases List.mem_map.mp h with ⟨d, _, hd⟩
  exact decDigit_ne_dash d hd

/-- The first occurrence of a separator character determines the split:
two decompositions around a character absent from both left parts agree. -/
lemma split_at_first_sep {c : Char} :
    ∀ (l1 l2 t1 t2 : List Char), c ∉ l1 → c ∉ l2 →
      l1 ++ c :: t1 = l2 ++ c :: t2 → l1 = l2 ∧ t1 = t2 := by
  intro l1
  induction l1 with
  | nil =>
    intro l2 t1 t2 _ h2 h
    cases l2 with
    | nil => simp_all
    | cons b l2 =>
      simp only [List.nil_append, List.cons_append, List.cons.injEq] at h
      exact absurd (h.1 ▸ List.mem_cons_self b l2) h2
  | cons a l1 ih =>
    intro l2 t1 t2 h1 h2 h
    cases l2 with
    | nil =>
      simp only [List.cons_append, List.nil_append, List.cons.injEq] at h
      exact absurd (h.1 ▸ List.mem_cons_self a l1) h1
    | cons b l2 =>
      simp only [List.cons_append, List.cons.injEq] at h
      have := ih l2 t1 t2 (fun hm => h1 (List.mem_cons_of_mem a hm))
        (fun hm => h2 (List.mem_cons_of_mem b hm)) h.2
      exact ⟨by rw [h.1, this.1], this.2⟩

/-! ### Knowledge ingestion (`/knowledge/add` and `/knowledge/upload`)

The embedding provider and the vector store are modelled as function
parameters returning `Except String` values; a thrown provider error
is an `Except.error`. -/

/-- One record upserted into the vector store: id, embedding vector,
and the metadata fields `pageContent` and `source`. -/
structure UpsertRecord where
  id : String
  values : List Int
  pageContent : String
  source : String
deriving DecidableEq

/-- JavaScript `a || b` on an optional string: the default is used when
the field is absent or the empty string (falsy). -/
def strOr (o : Option String) (d : String) : String :=
  match o with
  | none => d
  | some s => if s = "" then d else s

/-- The generated record id, `` `{pre}-${Date.now()}-${i}` ``. -/
def mkId (pre : String) (t i : Nat) : String :=
  pre ++ "-" ++ natDec t ++ "-" ++ natDec i

/-- The chunk-processing loop shared by `/knowledge/add` (`pre` is
`"manual"`) and `/knowledge/upload` (`pre` is `"file"`): walk the
chunks with their loop index, skip chunks that are blank after
trimming, embed each retained chunk and build its record; an embedding
failure aborts the whole loop (the JavaScript exception reaches the
route's catch block). -/
def buildRecords (pre : String) (embed : String → Except String (List Int))
    (now : Nat) (src : Option String) :
    Nat → List String → Except String (List UpsertRecord)
  | _, [] => .ok []
  | i, c :: cs =>
    if jsBlank c then buildRecords pre embed now src (i + 1) cs
    else
      match embed c with
      | .error e => .error e
      | .ok v =>
        match buildRecords pre embed now src (i + 1) cs with
        | .error e => .error e
        | .ok rs =>
          .ok ({ id := mkId pre now i,
                 values := v,
                 pageContent := c,
                 source := strOr src (mkId pre now i) } :: rs)

/-- Worker for the batch loop, with recursion fuel (any `fuel` at least
the list length gives the true slices). -/
def batchSlicesAux : Nat → List UpsertRecord → List (List UpsertRecord)
  | 0, _ => []
  | _ + 1, [] => []
  | fuel + 1, r :: rs => ((r :: rs).take 100) :: batchSlicesAux fuel ((r :: rs).drop 100)

/-- The batch loop bounds: `for (let i = 0; i < records.length; i += 100)`
with `records.slice(i, i + 100)` produces consecutive slices of at most
100 records. -/
def batchSlices (l : List UpsertRecord) : List (List UpsertRecord) :=
  batchSlicesAux l.length l

/-- Sequential execution of the batch upserts: each batch is awaited
before the next; a failing batch stops the loop (the rejection reaches
the catch block) so later batches are never attempted.  Returns the
overall outcome and the list of batches actually passed to the vector
store, in order. -/
def runBatches (upsert : List UpsertRecord → Except String Unit) :
    List (List UpsertRecord) → Except String Unit × List (List UpsertRecord)
  | [] => (.ok (), [])
  | b :: bs =>
    match upsert b with
    | .error e => (.error e, [b])
    | .ok _ =>
      let p := runBatches upsert bs
      (p.1, b :: p.2)

/-- JSON body of a `/knowledge/add` or `/knowledge/upload` response:
either an error object (with the optional diagnostic `message` of the
500 payload) or the success object. -/
inductive KnowledgeBody where
  | err (error : String) (message : Option String)
  | ok (message : String)
deriving DecidableEq

/-- Observable outcome of a `/knowledge/add` request: HTTP status, JSON
body, and the batches that were upserted into the vector store. -/
structure AddResult where
  status : Nat
  body : KnowledgeBody
  upserted : List (List UpsertRecord)
deriving DecidableEq

/-- The `/knowledge/add` handler: reject a missing or empty `text`
(falsy check) with 400; otherwise split on blank lines, build one
record per non-blank chunk with ids `manual-{now}-{i}`, upsert in
batches of 100, and answer with the record count, or 500 carrying the
provider error. -/
def knowledgeAdd (embed : String → Except String (List Int)) (now : Nat)
    (upsert : List UpsertRecord → Except String Unit)
    (text : Option String) (source : Option String) : AddResult :=
  match text with
  | none => { status := 400, body := .err "テキストが必要です" none, upserted := [] }
  | some t =>
    if t = "" then
      { status := 400, body := .err "テキストが必要です" none, upserted := [] }
    else
      match buildRecords "manual" embed now source 0 (jsSplit t "\n\n") with
      | .error e =>
        { status := 500, body := .err "Internal Server Error" (some e),
          upserted := [] }
      | .ok records =>
        let p := runBatches upsert (batchSlices records)
        match p.1 with
        | .error e =>
          { status := 500, body := .err "Internal Server Error" (some e),
            upserted := p.2 }
        | .ok _ =>
          { status := 200,
            body := .ok (natDec records.length ++ "件のドキュメントが追加されました"),
            upserted := p.2 }

/-- Observable outcome of a `/knowledge/upload` request; `fileDeleted`
records whether `fs.unlinkSync` ran on the temporary upload. -/
structure UploadResult where
  status : Nat
  body : KnowledgeBody
  upserted : List (List UpsertRecord)
  fileDeleted : Bool
deriving DecidableEq

/-- The `/knowledge/upload` handler: 400 when no file field is present;
otherwise read the temporary file, delete it immediately after the
read, then run the same chunk/embed/batch-upsert path with ids
`file-{now}-{i}` and the original filename as the source label. -/
def knowledgeUpload (embed : String → Except String (List Int)) (now : Nat)
    (upsert : List UpsertRecord → Except String Unit)
    (filePresent : Bool) (readFile : Except String String)
    (origName : Option String) : UploadResult :=
  if !filePresent then
    { status := 400, body := .err "ファイルが必要です" none,
      upserted := [], fileDeleted := false }
  else
    match readFile with
    | .error e =>
      { status := 500, body := .err "Internal Server Error" (some e),
        upserted := [], fileDeleted := false }
    | .ok text =>
      match buildRecords "file" embed now origName 0 (jsSplit text "\n\n") with
      | .error e =>
        { status := 500, body := .err "Internal Server Error" (some e),
          upserted := [], fileDeleted := true }
      | .ok records =>
        let p := runBatches upsert (batchSlices records)
        match p.1 with
        | .error e =>
          { status := 500, body := .err "Internal Server Error" (some e),
            upserted := p.2, fileDeleted := true }
        | .ok _ =>
          { status := 200,
            body := .ok (natDec records.length ++ "件のドキュメントが追加されました"),
            upserted := p.2, fileDeleted := true }

/-! ### Lemmas about batching and record building -/

lemma batchSlicesAux_flatten : ∀ fuel l, l.length ≤ fuel →
    (batchSlicesAux fuel l).flatten = l := by
  intro fuel
  induction fuel with
  | zero =>
    intro l h
    have : l = [] := List.eq_nil_of_length_eq_zero (by omega)
    subst this
    rfl
  | succ f ih =>
    intro l h
    cases l with
    | nil => rfl
    | cons r rs =>
      show (r :: rs).take 100 ++ (batchSlicesAux f ((r :: rs).drop 100)).flatten
          = r :: rs
      rw [ih ((r :: rs).drop 100) (by simp at h ⊢; omega)]
      exact List.take_append_drop 100 (r :: rs)

lemma batchSlices_flatten (l : List UpsertRecord) :
    (batchSlices l).flatten = l :=
  batchSlicesAux_flatten l.length l (Nat.le_refl _)

lemma batchSlicesAux_mem : ∀ fuel l b, l.length ≤ fuel →
    b ∈ batchSlicesAux fuel l → 0 < b.length ∧ b.length ≤ 100 := by
  intro fuel
  induction fuel with
  | zero =>
    intro l b h hb
    have : l = [] := List.eq_nil_of_length_eq_zero (by omega)
    subst this
    simp [batchSlicesAux] at hb
  | succ f ih =>
    intro l b h hb
    cases l with
    | nil => simp [batchSlicesAux] at hb
    | cons r rs =>
      rcases List.mem_cons.mp hb with hhead | htail
      · subst hhead
        have hlen : ((r :: rs).take 100).length = min 100 (rs.length + 1) := by
          rw [List.length_take, List.length_cons]
        constructor <;> omega
      · exact ih ((r :: rs).drop 100) b (by simp at h ⊢; omega) htail

lemma batchSlices_mem (l : List UpsertRecord) (b : List UpsertRecord)
    (hb : b ∈ batchSlices l) : 0 < b.length ∧ b.length ≤ 100 :=
  batchSlicesAux_mem l.length l b (Nat.le_refl _) hb

lemma runBatches_prefix (u : List UpsertRecord → Except String Unit) :
    ∀ bs, (runBatches u bs).2 <+: bs := by
  intro bs
  induction bs with
  | nil => exact List.prefix_refl []
  | cons b bs ih =>
    show (runBatches u (b :: bs)).2 <+: b :: bs
    unfold runBatches
    cases hu : u b with
    | error e => simp
    | ok x => simpa using ih

lemma runBatches_ok (u : List UpsertRecord → Except String Unit) :
    ∀ bs, (runBatches u bs).1 = .ok () → (runBatches u bs).2 = bs := by
  intro bs
  induction bs with
  | nil => intro _; rfl
  | cons b bs ih =>
    intro h
    unfold runBatches at h ⊢
    cases hu : u b with
    | error e =>
      rw [hu] at h
      simp at h
    | ok x =>
      rw [hu] at h
      simp only [] at h
      show b :: (runBatches u bs).2 = b :: bs
      rw [ih h]

lemma runBatches_error (u : List UpsertRecord → Except String Unit) :
    ∀ bs e, (runBatches u bs).1 = .error e →
      ∃ pre b, (runBatches u bs).2 = pre ++ [b] ∧ u b = .error e ∧
        ∀ x ∈ pre, u x = .ok () := by
  intro bs
  induction bs with
  | nil => intro e h; simp [runBatches] at h
  | cons b bs ih =>
    intro e h
    unfold runBatches at h ⊢
    cases hu : u b with
    | error e0 =>
      rw [hu] at h
      have he : e0 = e := by simpa using h
      subst he
      exact ⟨[], b, by simp, hu, by simp⟩
    | ok x =>
      rw [hu] at h
      simp only [] at h
      rcases ih e h with ⟨pre, bb, h1, h2, h3⟩
      refine ⟨b :: pre, bb, by simp [h1], h2, ?_⟩
      intro y hy
      rcases List.mem_cons.mp hy with rfl | hmem
      · cases x; exact hu
      · exact h3 y hmem

lemma runBatches_all_ok (u : List UpsertRecord → Except String Unit)
    (hu : ∀ b, u b = .ok ()) : ∀ bs, runBatches u bs = (.ok (), bs) := by
  intro bs
  induction bs with
  | nil => rfl
  | cons b bs ih =>
    unfold runBatches
    rw [hu b]
    simp [ih]

lemma buildRecords_total : ∀ (pre : String) (f : String → List Int)
    (now : Nat) (src : Option String) (chunks : List String) (i : Nat),
    ∃ rs, buildRecords pre (fun s => .ok (f s)) now src i chunks = .ok rs ∧
      rs.map (fun r => r.pageContent) = chunks.filter (fun c => !(jsBlank c)) := by
  intro pre f now src chunks
  induction chunks with
  | nil => intro i; exact ⟨[], rfl, rfl⟩
  | cons c cs ih =>
    intro i
    rcases ih (i + 1) with ⟨rs, h1, h2⟩
    by_cases hb : jsBlank c
    · refine ⟨rs, ?_, ?_⟩
      · simp [buildRecords, hb, h1]
      · simp [hb, h2]
    · refine ⟨{ id := mkId pre now i, values := f c, pageContent := c,
                source := strOr src (mkId pre now i) } :: rs, ?_, ?_⟩
      · simp [buildRecords, hb, h1]
      · simp [hb, h2]

lemma buildRecords_id_shape : ∀ (pre : String)
    (embed : String → Except String (List Int)) (now : Nat)
    (src : Option String) (chunks : List String) (i0 : Nat)
    (rs : List UpsertRecord),
    buildRecords pre embed now src i0 chunks = .ok rs →
    ∀ r ∈ rs, ∃ i, r.id = mkId pre now i := by
  intro pre embed now src chunks
  induction chunks with
  | nil =>
    intro i0 rs h r hr
    simp [buildRecords] at h
    subst h
    simp at hr
  | cons c cs ih =>
    intro i0 rs h r hr
    by_cases hb : jsBlank c
    · simp only [buildRecords, hb, if_true] at h
      exact ih (i0 + 1) rs h r hr
    · simp only [buildRecords, hb, if_false] at h
      cases he : embed c with
      | error e => rw [he] at h; simp at h
      | ok v =>
        rw [he] at h
        cases hrest : buildRecords pre embed now src (i0 + 1) cs with
        | error e => rw [hrest] at h; simp at h
        | ok rest =>
          rw [hrest] at h
          simp at h
          subst h
          rcases List.mem_cons.mp hr with rfl | hmem
          · exact ⟨i0, rfl⟩
          · exact ih (i0 + 1) rest hrest r hmem

/-! ### Record-id disjointness across distinct timestamps -/

lemma string_data_append (a b : String) : (a ++ b).data = a.data ++ b.data :=
  rfl

lemma natDec_data (n : Nat) : (natDec n).data = (decDigits n).map decDigit :=
  rfl

lemma mkId_eq_timestamp {pre : String} {t1 t2 i j : Nat}
    (h : mkId pre t1 i = mkId pre t2 j) : t1 = t2 := by
  unfold mkId at h
  have hdata := congrArg String.data h
  simp only [string_data_append, List.append_assoc] at hdata
  have hdata2 := List.append_cancel_left hdata
  have hshape : ∀ (x : Nat) (y : List Char),
      ("-".data ++ ((natDec x).data ++ ("-".data ++ y)))
      = '-' :: ((natDec x).data ++ '-' :: y) := by
    intro x y
    rfl
  rw [hshape t1 (natDec i).data, hshape t2 (natDec j).data] at hdata2
  have hdata3 : (natDec t1).data ++ '-' :: (natDec i).data
      = (natDec t2).data ++ '-' :: (natDec j).data := by
    exact List.cons.inj hdata2 |>.2
  have := split_at_first_sep (natDec t1).data (natDec t2).data
    (natDec i).data (natDec j).data (dash_not_mem_natDec t1)
    (dash_not_mem_natDec t2) hdata3
  have hstr : natDec t1 = natDec t2 := congrArg String.mk this.1
  exact natDec_inj hstr

/-! ### Conversation model, `/coaching` and `/ask` handlers -/

/-- One conversation turn as sent by the frontend. -/
structure ConvMsg where
  speaker : String
  text : String
deriving DecidableEq

/-- A JSON value as it can appear in a request-body field.  Arrays in
this API carry conversation messages. -/
inductive JVal where
  | jnull
  | jbool (b : Bool)
  | jnum (n : Int)
  | jstr (s : String)
  | jarr (msgs : List ConvMsg)
  | jobj
deriving DecidableEq

/-- JavaScript truthiness of a JSON value (an absent field is handled
by `Option` at the call sites). -/
def truthy : JVal → Bool
  | .jnull => false
  | .jbool b => b
  | .jnum n => n != 0
  | .jstr s => s != ""
  | .jarr _ => true
  | .jobj => true

/-- `Array.isArray`. -/
def isArrayJ : JVal → Bool
  | .jarr _ => true
  | _ => false

/-- The elements of an array value. -/
def arrElems : JVal → List ConvMsg
  | .jarr ms => ms
  | _ => []

/-- The `/coaching` guard
`!conversation || !Array.isArray(conversation) || conversation.length === 0`,
negated: `true` exactly when the request passes validation. -/
def validConversation : Option JVal → Bool
  | none => false
  | some v => truthy v && isArrayJ v && ((arrElems v).length != 0)

/-- `conversation.map(msg => templ(speaker, text)).join(blank line)`. -/
def renderConversation (msgs : List ConvMsg) : String :=
  jsJoin "\n\n" (msgs.map (fun m => m.speaker ++ ": " ++ m.text))

/-- Fixed prompt text preceding the transcript in the coaching prompt. -/
def promptHeader : String :=
  "\n以下は商談の会話です。この会話を分析し、以下の3つのカテゴリに分けて簡潔なアドバイスを提供してください:\n\n1. 質問例:次に尋ねるべき具体的な質問を2-3個\n2. 次のステップ:商談を進めるための次のアクションを1-2個\n3. その他提案:商談を成功させるためのヒントを1-2個\n\n回答は各カテゴリごとに箇条書きで、説明は必要ありません。具体的な内容だけを書いてください。\n\n会話:\n"

/-- Fixed prompt text following the transcript in the coaching prompt. -/
def promptFooter : String :=
  "\n\n回答形式：\n質問例：\n- \n- \n\n次のステップ：\n- \n\nその他提案：\n- \n"

/-- The full coaching prompt around a rendered transcript. -/
def coachingPrompt (msgs : List ConvMsg) : String :=
  promptHeader ++ renderConversation msgs ++ promptFooter

/-- Server-side parsing of the model answer:
`answer.split(regex).filter(item => item.trim().length > 0).map(item => item.trim())`. -/
def parseSuggestions (answer : String) : List String :=
  ((numericSplit answer).filter (fun s => !(jsTrim s == ""))).map jsTrim

/-- JSON body of a `/coaching` response. -/
inductive CoachBody where
  | err (error : String) (message : Option String)
  | ok (suggestions : List String)
deriving DecidableEq

/-- Observable outcome of a `/coaching` request.  `promptSent` is the
argument of the single `agent.ask` call, `none` when the agent (and so
every external provider) is never invoked. -/
structure CoachResult where
  status : Nat
  body : CoachBody
  promptSent : Option String
deriving DecidableEq

/-- The `/coaching` handler.  `llm` models `agent.ask` (which may
throw). -/
def coachingHandler (conversation : Option JVal)
    (llm : String → Except String String) : CoachResult :=
  if !(validConversation conversation) then
    { status := 400, body := .err "有効な会話データが必要です" none,
      promptSent := none }
  else
    let msgs := arrElems (conversation.getD .jnull)
    let prompt := coachingPrompt msgs
    match llm prompt with
    | .error e =>
      { status := 500, body := .err "Internal Server Error" (some e),
        promptSent := some prompt }
    | .ok answer =>
      { status := 200, body := .ok (parseSuggestions answer),
        promptSent := some prompt }

/-- JSON body of an `/ask` response. -/
inductive AskBody where
  | err (error : String) (message : Option String)
  | ok (answer : String)
deriving DecidableEq

/-- Observable outcome of an `/ask` request; `agentCalled` is whether
the handler reached the agent (and so any external provider). -/
structure AskResult where
  status : Nat
  body : AskBody
  agentCalled : Bool
deriving DecidableEq

/-- The string handed to the agent for a truthy question value. -/
def questionText : JVal → String
  | .jstr s => s
  | _ => ""

/-- The `POST /ask` handler: `if (!question)` rejects any falsy value
with 400 before the agent is touched; otherwise the agent answers (200)
or its error surfaces as 500. -/
def askHandler (question : Option JVal)
    (agent : String → Except String String) : AskResult :=
  match question with
  | none =>
    { status := 400,
      body := .err "Missing \x27question\x27 in request body" none,
      agentCalled := false }
  | some v =>
    if !truthy v then
      { status := 400,
        body := .err "Missing \x27question\x27 in request body" none,
        agentCalled := false }
    else
      match agent (questionText v) with
      | .ok a => { status := 200, body := .ok a, agentCalled := true }
      | .error e =>
        { status := 500, body := .err "Internal Server Error" (some e),
          agentCalled := true }

/-! ### Client-side suggestion categorization (`askApi.ts`) -/

/-- Keyword test routing a suggestion into the `questions` bucket. -/
def isQuestionSuggestion (s : String) : Bool :=
  containsSub s "質問" || containsSub s "聞く" || containsSub s "ヒアリング"

/-- Keyword test routing a suggestion into the `nextSteps` bucket. -/
def isNextStepSuggestion (s : String) : Bool :=
  containsSub s "次" || containsSub s "ステップ" || containsSub s "進める"

/-- The three category lists of the client UI. -/
structure SuggestionSet where
  questions : List String
  nextSteps : List String
  tips : List String
deriving DecidableEq

/-- First categorization pass: the `forEach` with
`if / else if / else` pushes each suggestion into exactly one bucket,
keeping order — equivalently three filters. -/
def categorizeKeywords (l : List String) : SuggestionSet :=
  { questions := l.filter (fun s => isQuestionSuggestion s),
    nextSteps := l.filter
      (fun s => !isQuestionSuggestion s && isNextStepSuggestion s),
    tips := l.filter
      (fun s => !isQuestionSuggestion s && !isNextStepSuggestion s) }

/-- `Math.ceil(n / 3)` on a natural number. -/
def ceilThird (n : Nat) : Nat := (n + 2) / 3

/-- Full client categorization: keyword pass, then — when the
`questions` bucket came out empty — the positional fallback
`slice(0, third)`, `slice(third, third * 2)`, `slice(third * 2)`. -/
def categorizeSuggestions (l : List String) : SuggestionSet :=
  let k := categorizeKeywords l
  if k.questions.length == 0 then
    { questions := l.take (ceilThird l.length),
      nextSteps := (l.drop (ceilThird l.length)).take (ceilThird l.length),
      tips := l.drop (ceilThird l.length + ceilThird l.length) }
  else k

lemma filter3_length (p q : String → Bool) : ∀ l : List String,
    (l.filter (fun s => p s)).length
      + (l.filter (fun s => !p s && q s)).length
      + (l.filter (fun s => !p s && !q s)).length = l.length := by
  intro l
  induction l with
  | nil => rfl
  | cons a l ih =>
    cases hp : p a <;> cases hq : q a <;>
      simp [List.filter_cons, hp, hq] <;> omega

/-- The two-stage client categorization loses and duplicates nothing:
the three buckets always hold exactly the input suggestions. -/
lemma categorizeSuggestions_count (l : List String) :
    (categorizeSuggestions l).questions.length
      + (categorizeSuggestions l).nextSteps.length
      + (categorizeSuggestions l).tips.length = l.length := by
  unfold categorizeSuggestions
  simp only []
  split
  · simp only [List.length_take, List.length_drop]
    unfold ceilThird
    omega
  · exact filter3_length isQuestionSuggestion isNextStepSuggestion l

lemma validConversation_jarr {msgs : List ConvMsg} (h : msgs ≠ []) :
    validConversation (some (.jarr msgs)) = true := by
  have hlen : msgs.length ≠ 0 := fun hl => h (List.eq_nil_of_length_eq_zero hl)
  simp [validConversation, truthy, isArrayJ, arrElems, hlen]

/-! ### Retriever and agent pipeline (`initChain` in the Pinecone
variant of `index.ts`) -/

/-- One match returned by the vector-store query; the metadata fields
may be absent. -/
structure PineMatch where
  pageContent : Option String
  source : Option String
deriving DecidableEq

/-- A retrieved context document. -/
structure RetrievedDoc where
  pageContent : String
  source : String
deriving DecidableEq

/-- Mapping of one match to a document, substituting the fixed
placeholders when a metadata field is absent or falsy. -/
def matchToDoc (m : PineMatch) : RetrievedDoc :=
  { pageContent :=
      match m.pageContent with
      | some s => if s = "" then "デフォルトのコンテンツ" else s
      | none => "デフォルトのコンテンツ",
    source :=
      match m.source with
      | some s => if s = "" then "不明" else s
      | none => "不明" }

/-- The custom retriever's `getRelevantDocuments`: embed the query, run
the nearest-neighbour query, map the matches; any failure of either
call is caught and yields the empty list. -/
def getRelevantDocuments (embed : String → Except String (List Int))
    (queryIndex : List Int → Except String (List PineMatch))
    (query : String) : List RetrievedDoc :=
  match embed query with
  | .error _ => []
  | .ok v =>
    match queryIndex v with
    | .error _ => []
    | .ok ms => ms.map matchToDoc

/-- `SalesCoachAgent.ask` through the retrieval chain: the external
chain (`llm`) combines the question with whatever documents the
retriever produced into one generation call. -/
def agentAsk (llm : String → List RetrievedDoc → Except String String)
    (embed : String → Except String (List Int))
    (queryIndex : List Int → Except String (List PineMatch))
    (question : String) : Except String String :=
  llm question (getRelevantDocuments embed queryIndex question)

/-! ### Agent lifecycle (singleton versus per-request construction) -/

/-- A constructed SalesCoachAgent; `pipelineId` identifies the pipeline
build (`initChain` invocation) started by its constructor. -/
structure AgentHandle where
  pipelineId : Nat
deriving DecidableEq

/-- Process-wide state: the cached singleton (if any) and how many
pipeline initializations have ever started in this process. -/
structure ProcState where
  inst : Option AgentHandle
  initCount : Nat
deriving DecidableEq

/-- State at process start. -/
def initialProcState : ProcState := { inst := none, initCount := 0 }

/-- `SalesCoachAgent.getInstance()`: return the cached instance, or
construct it (starting one pipeline build) when absent.  Node's event
loop serializes this check-then-set. -/
def getInstance (s : ProcState) : AgentHandle × ProcState :=
  match s.inst with
  | some a => (a, s)
  | none =>
    let a : AgentHandle := { pipelineId := s.initCount }
    (a, { inst := some a, initCount := s.initCount + 1 })

/-- The `ask.ts` route body `const agent = new SalesCoachAgent()`: a
fresh agent — and a fresh pipeline build — on every request. -/
def newAgentPerRequest (s : ProcState) : AgentHandle × ProcState :=
  ({ pipelineId := s.initCount },
   { inst := s.inst, initCount := s.initCount + 1 })

/-- Serve `n` requests through the singleton accessor, collecting the
agent each request observes. -/
def runSingletonAsks : Nat → ProcState → List AgentHandle × ProcState
  | 0, s => ([], s)
  | n + 1, s =>
    let p := getInstance s
    let q := runSingletonAsks n p.2
    (p.1 :: q.1, q.2)

/-- Serve `n` requests through the `ask.ts` route, collecting the agent
each request observes. -/
def runAppAsks : Nat → ProcState → List AgentHandle × ProcState
  | 0, s => ([], s)
  | n + 1, s =>
    let p := newAgentPerRequest s
    let q := runAppAsks n p.2
    (p.1 :: q.1, q.2)

lemma runSingletonAsks_cached : ∀ n (a : AgentHandle) (s : ProcState),
    s.inst = some a → runSingletonAsks n s = (List.replicate n a, s) := by
  intro n
  induction n with
  | zero => intro a s h; rfl
  | succ m ih =>
    intro a s h
    have hg : getInstance s = (a, s) := by
      unfold getInstance
      rw [h]
    show (let p := getInstance s
          let q := runSingletonAsks m p.2
          (p.1 :: q.1, q.2)) = (List.replicate (m + 1) a, s)
    rw [hg]
    simp only []
    rw [ih a s h]
    simp [List.replicate_succ]

/-! ## Claim theorems -/

/-- C1 (counterexample): the claim says no second pipeline construction
ever runs in one process; but two requests served by the `ask.ts` route
each construct a fresh agent, so the two requests observe two distinct
pipelines and the process has started two initializations. -/
theorem c1_counterexample :
    (runAppAsks 2 initialProcState).1
      = [{ pipelineId := 0 }, { pipelineId := 1 }] ∧
    (runAppAsks 2 initialProcState).2.initCount = 2 ∧
    ¬ (runAppAsks 2 initialProcState).2.initCount ≤ 1 := by
  refine ⟨by decide, by decide, by decide⟩

/-- C1 (amended): in the `getInstance`-based server of `index.ts`, the
pipeline initialization runs exactly once per process however many ask
requests are served, and every request observes the same agent. -/
theorem c1_amended (n : Nat) (h : 1 ≤ n) :
    (runSingletonAsks n initialProcState).2.initCount = 1 ∧
    (runSingletonAsks n initialProcState).1
      = List.replicate n { pipelineId := 0 } := by
  obtain ⟨m, rfl⟩ : ∃ m, n = m + 1 := ⟨n - 1, by omega⟩
  have step : getInstance initialProcState
      = ({ pipelineId := 0 },
         { inst := some { pipelineId := 0 }, initCount := 1 }) := rfl
  have hrun : runSingletonAsks (m + 1) initialProcState
      = ({ pipelineId := 0 } :: List.replicate m { pipelineId := 0 },
         { inst := some { pipelineId := 0 }, initCount := 1 }) := by
    show (let p := getInstance initialProcState
          let q := runSingletonAsks m p.2
          (p.1 :: q.1, q.2)) = _
    rw [step]
    simp only []
    rw [runSingletonAsks_cached m { pipelineId := 0 } _ rfl]
  rw [hrun]
  exact ⟨rfl, by simp [List.replicate_succ]⟩

/-- Witness for C1 (amended) at two requests. -/
theorem c1_amended_witness :
    1 ≤ 2 ∧
    ((runSingletonAsks 2 initialProcState).2.initCount = 1 ∧
     (runSingletonAsks 2 initialProcState).1
       = List.replicate 2 { pipelineId := 0 }) :=
  ⟨by decide, c1_amended 2 (by decide)⟩

/-- C2: for every non-empty `text`, with the embedding succeeding and
the vector store accepting every batch, `/knowledge/add` upserts
exactly one record per blank-line-split segment that is non-empty
after trimming (in order, zero for an all-whitespace input) and
responds success with that count in its message. -/
theorem c2_add_counts (embedF : String → List Int) (now : Nat)
    (upsert : List UpsertRecord → Except String Unit)
    (text : String) (source : Option String)
    (htext : text ≠ "") (hupsert : ∀ b, upsert b = .ok ()) :
    (knowledgeAdd (fun s => .ok (embedF s)) now upsert (some text) source).status
      = 200 ∧
    (knowledgeAdd (fun s => .ok (embedF s)) now upsert (some text) source).body
      = .ok (natDec ((jsSplit text "\n\n").filter (fun c => !(jsBlank c))).length
          ++ "件のドキュメントが追加されました") ∧
    ((knowledgeAdd (fun s => .ok (embedF s)) now upsert (some text) source).upserted.flatten.map
        (fun r => r.pageContent))
      = (jsSplit text "\n\n").filter (fun c => !(jsBlank c)) := by
  rcases buildRecords_total "manual" embedF now source (jsSplit text "\n\n") 0
    with ⟨rs, hbr, hpc⟩
  have hrb := runBatches_all_ok upsert hupsert (batchSlices rs)
  have hlen : rs.length
      = ((jsSplit text "\n\n").filter (fun c => !(jsBlank c))).length := by
    rw [← hpc, List.length_map]
  unfold knowledgeAdd
  simp only [if_neg htext, hbr, hrb]
  refine ⟨by trivial, ?_, ?_⟩
  · rw [hlen]
  · rw [batchSlices_flatten, hpc]

/-- Witness for C2 at the spec's scenario `"A\n\nB\n\n"`, which also
evaluates the message to the literal of the scenario. -/
theorem c2_add_counts_witness :
    ("A\n\nB\n\n" ≠ "" ∧
     ((knowledgeAdd (fun _ => .ok ([] : List Int)) 0 (fun _ => .ok ())
         (some "A\n\nB\n\n") none).status = 200 ∧
      (knowledgeAdd (fun _ => .ok ([] : List Int)) 0 (fun _ => .ok ())
         (some "A\n\nB\n\n") none).body
        = .ok (natDec ((jsSplit "A\n\nB\n\n" "\n\n").filter
              (fun c => !(jsBlank c))).length
            ++ "件のドキュメントが追加されました") ∧
      ((knowledgeAdd (fun _ => .ok ([] : List Int)) 0 (fun _ => .ok ())
          (some "A\n\nB\n\n") none).upserted.flatten.map
          (fun r => r.pageContent))
        = (jsSplit "A\n\nB\n\n" "\n\n").filter (fun c => !(jsBlank c)))) ∧
    (knowledgeAdd (fun _ => .ok ([] : List Int)) 0 (fun _ => .ok ())
        (some "A\n\nB\n\n") none).body
      = .ok "2件のドキュメントが追加されました" :=
  ⟨⟨by decide,
    c2_add_counts (fun _ => []) 0 (fun _ => .ok ()) "A\n\nB\n\n" none
      (by decide) (fun b => rfl)⟩,
   by decide⟩

/-- C3: for a conversation of length at least one and any raw model
response, the client categorization (keyword buckets with the
positional fallback) distributes the server's suggestion list without
losing or duplicating an item: the three bucket sizes sum to the number
of non-empty numeric-split segments of the response. -/
theorem c3_no_item_lost (msgs : List ConvMsg) (answer : String)
    (h : 1 ≤ msgs.length) :
    ∃ suggestions,
      (coachingHandler (some (.jarr msgs)) (fun _ => .ok answer)).body
        = .ok suggestions ∧
      (categorizeSuggestions suggestions).questions.length
        + (categorizeSuggestions suggestions).nextSteps.length
        + (categorizeSuggestions suggestions).tips.length
        = ((numericSplit answer).filter (fun s => !(jsTrim s == ""))).length := by
  have hne : msgs ≠ [] := by
    intro he
    subst he
    simp at h
  have hv := validConversation_jarr hne
  refine ⟨parseSuggestions answer, ?_, ?_⟩
  · unfold coachingHandler
    rw [hv]
    rfl
  · rw [categorizeSuggestions_count]
    unfold parseSuggestions
    rw [List.length_map]

/-- Witness for C3 at a one-message conversation and a two-item
response. -/
theorem c3_no_item_lost_witness :
    1 ≤ ([⟨"user", "hi"⟩] : List ConvMsg).length ∧
    ∃ suggestions,
      (coachingHandler (some (.jarr [⟨"user", "hi"⟩]))
          (fun _ => .ok "1. a\n2. b")).body = .ok suggestions ∧
      (categorizeSuggestions suggestions).questions.length
        + (categorizeSuggestions suggestions).nextSteps.length
        + (categorizeSuggestions suggestions).tips.length
        = ((numericSplit "1. a\n2. b").filter
            (fun s => !(jsTrim s == ""))).length :=
  ⟨by decide, c3_no_item_lost [⟨"user", "hi"⟩] "1. a\n2. b" (by decide)⟩

/-- C4: when the embedding call or the vector-store query fails, the
retriever returns the empty document list instead of propagating the
error, and `ask` still returns whatever the model generates over the
empty grounding. -/
theorem c4_retriever_degrades (embed : String → Except String (List Int))
    (queryIndex : List Int → Except String (List PineMatch))
    (q : String) (llm : String → List RetrievedDoc → Except String String)
    (a : String)
    (hfail : (∃ e, embed q = .error e) ∨
      (∃ v e, embed q = .ok v ∧ queryIndex v = .error e))
    (hllm : llm q [] = .ok a) :
    getRelevantDocuments embed queryIndex q = [] ∧
    agentAsk llm embed queryIndex q = .ok a := by
  have hdocs : getRelevantDocuments embed queryIndex q = [] := by
    unfold getRelevantDocuments
    rcases hfail with ⟨e, he⟩ | ⟨v, e, hv, hq⟩
    · rw [he]
    · simp only [hv]
      rw [hq]
  refine ⟨hdocs, ?_⟩
  unfold agentAsk
  rw [hdocs]
  exact hllm

/-- Witness for C4 with an unreachable embedding provider. -/
theorem c4_retriever_degrades_witness :
    getRelevantDocuments (fun _ => .error "network error")
      (fun _ => .ok []) "質問" = [] ∧
    agentAsk (fun _ _ => .ok "answer") (fun _ => .error "network error")
      (fun _ => .ok []) "質問" = .ok "answer" :=
  c4_retriever_degrades (fun _ => .error "network error") (fun _ => .ok [])
    "質問" (fun _ _ => .ok "answer") "answer"
    (Or.inl ⟨"network error", rfl⟩) rfl

/-- C5: an invalid `conversation` field (absent, falsy, not an array, or
empty array) yields exactly the 400 error body, and the agent — hence
every external provider — is never contacted. -/
theorem c5_validation_first (conversation : Option JVal)
    (llm : String → Except String String)
    (h : validConversation conversation = false) :
    (coachingHandler conversation llm).status = 400 ∧
    (coachingHandler conversation llm).body
      = .err "有効な会話データが必要です" none ∧
    (coachingHandler conversation llm).promptSent = none := by
  unfold coachingHandler
  rw [h]
  exact ⟨rfl, rfl, rfl⟩

/-- Witness for C5 at the empty-array conversation of the spec
scenario. -/
theorem c5_validation_first_witness :
    validConversation (some (.jarr [])) = false ∧
    ((coachingHandler (some (.jarr [])) (fun _ => .ok "x")).status = 400 ∧
     (coachingHandler (some (.jarr [])) (fun _ => .ok "x")).body
       = .err "有効な会話データが必要です" none ∧
     (coachingHandler (some (.jarr [])) (fun _ => .ok "x")).promptSent
       = none) :=
  ⟨by decide, c5_validation_first (some (.jarr [])) (fun _ => .ok "x")
    (by decide)⟩

/-- C6 (counterexample): ingesting the same text under two distinct
source labels at the same observed `Date.now()` produces identical
record ids — `manual-0-0` both times — so the second ingestion
overwrites the first; the ids never include the label. -/
theorem c6_counterexample :
    ((knowledgeAdd (fun _ => .ok []) 0 (fun _ => .ok ())
        (some "A") (some "labelOne")).upserted.flatten.map (fun r => r.id))
      = ["manual-0-0"] ∧
    ((knowledgeAdd (fun _ => .ok []) 0 (fun _ => .ok ())
        (some "A") (some "labelTwo")).upserted.flatten.map (fun r => r.id))
      = ["manual-0-0"] := by
  exact ⟨by decide, by decide⟩

/-- C6 (amended): ids are derived from the observed timestamp and the
chunk position only; two ingestions' record ids never collide provided
the two observed `Date.now()` values differ (for any texts and any
source labels). -/
theorem c6_amended (embed1 embed2 : String → Except String (List Int))
    (t1 t2 : Nat) (src1 src2 : Option String)
    (chunks1 chunks2 : List String) (rs1 rs2 : List UpsertRecord)
    (hne : t1 ≠ t2)
    (h1 : buildRecords "manual" embed1 t1 src1 0 chunks1 = .ok rs1)
    (h2 : buildRecords "manual" embed2 t2 src2 0 chunks2 = .ok rs2) :
    ∀ r1 ∈ rs1, ∀ r2 ∈ rs2, r1.id ≠ r2.id := by
  intro r1 hr1 r2 hr2 heq
  rcases buildRecords_id_shape "manual" embed1 t1 src1 chunks1 0 rs1 h1 r1 hr1
    with ⟨i, hi⟩
  rcases buildRecords_id_shape "manual" embed2 t2 src2 chunks2 0 rs2 h2 r2 hr2
    with ⟨j, hj⟩
  rw [hi, hj] at heq
  exact hne (mkId_eq_timestamp heq)

/-- Witness for C6 (amended): same text, distinct labels, timestamps 0
and 1. -/
theorem c6_amended_witness :
    (0 : Nat) ≠ 1 ∧
    ({ id := "manual-0-0", values := [], pageContent := "A",
       source := "labelOne" } : UpsertRecord).id ≠
    ({ id := "manual-1-0", values := [], pageContent := "A",
       source := "labelTwo" } : UpsertRecord).id :=
  ⟨by decide,
   c6_amended (fun _ => .ok []) (fun _ => .ok []) 0 1
     (some "labelOne") (some "labelTwo") ["A"] ["A"]
     [{ id := "manual-0-0", values := [], pageContent := "A",
        source := "labelOne" }]
     [{ id := "manual-1-0", values := [], pageContent := "A",
        source := "labelTwo" }]
     (by decide) rfl rfl
     _ (by decide) _ (by decide)⟩

/-- C7: upserts go out as consecutive order-preserving batches of at
most 100 records, sequentially; a failing batch stops the loop — the
batches actually sent are a prefix ending at the failing batch, all
earlier ones having succeeded — and the originating error is surfaced
as the handler's 500 response body. -/
theorem c7_batching (records : List UpsertRecord)
    (upsert : List UpsertRecord → Except String Unit)
    (embed : String → Except String (List Int)) (now : Nat)
    (source : Option String) (text : String) :
    (batchSlices records).flatten = records ∧
    (∀ b ∈ batchSlices records, 0 < b.length ∧ b.length ≤ 100) ∧
    ((runBatches upsert (batchSlices records)).1 = .ok () →
      (runBatches upsert (batchSlices records)).2 = batchSlices records) ∧
    (∀ e, (runBatches upsert (batchSlices records)).1 = .error e →
      ∃ pre b, (runBatches upsert (batchSlices records)).2 = pre ++ [b] ∧
        upsert b = .error e ∧ ∀ x ∈ pre, upsert x = .ok ()) ∧
    (runBatches upsert (batchSlices records)).2 <+: batchSlices records ∧
    (text ≠ "" → ∀ rs e,
      buildRecords "manual" embed now source 0 (jsSplit text "\n\n") = .ok rs →
      (runBatches upsert (batchSlices rs)).1 = .error e →
      (knowledgeAdd embed now upsert (some text) source).status = 500 ∧
      (knowledgeAdd embed now upsert (some text) source).body
        = .err "Internal Server Error" (some e)) := by
  refine ⟨batchSlices_flatten records,
    fun b hb => batchSlices_mem records b hb,
    runBatches_ok upsert (batchSlices records),
    fun e he => runBatches_error upsert (batchSlices records) e he,
    runBatches_prefix upsert (batchSlices records), ?_⟩
  intro ht rs e hbr herr
  unfold knowledgeAdd
  simp [if_neg ht, hbr, herr]

/-- Witness for C7: a one-record ingestion against a failing vector
store surfaces the provider error as the 500 body. -/
theorem c7_batching_witness :
    ("A" ≠ "") ∧
    (knowledgeAdd (fun _ => .ok []) 0 (fun _ => .error "boom")
        (some "A") none).status = 500 ∧
    (knowledgeAdd (fun _ => .ok []) 0 (fun _ => .error "boom")
        (some "A") none).body = .err "Internal Server Error" (some "boom") :=
  ⟨by decide,
   (c7_batching [] (fun _ => .error "boom") (fun _ => .ok []) 0 none
       "A").2.2.2.2.2 (by decide)
     [{ id := "manual-0-0", values := [], pageContent := "A",
        source := "manual-0-0" }] "boom" rfl rfl⟩

/-- C8: for a non-empty conversation the handler sends the transcript
rendered as speaker-colon-text lines joined by blank lines inside the
fixed template, and returns exactly the trimmed non-empty numeric-split
segments of the single model response, in order. -/
theorem c8_render_and_parse (msgs : List ConvMsg) (answer : String)
    (h : msgs ≠ []) :
    (coachingHandler (some (.jarr msgs)) (fun _ => .ok answer)).status
      = 200 ∧
    (coachingHandler (some (.jarr msgs)) (fun _ => .ok answer)).promptSent
      = some (promptHeader
          ++ jsJoin "\n\n" (msgs.map (fun m => m.speaker ++ ": " ++ m.text))
          ++ promptFooter) ∧
    (coachingHandler (some (.jarr msgs)) (fun _ => .ok answer)).body
      = .ok (((numericSplit answer).filter
          (fun s => !(jsTrim s == ""))).map jsTrim) := by
  have hv := validConversation_jarr h
  unfold coachingHandler
  rw [hv]
  exact ⟨rfl, rfl, rfl⟩

/-- Witness for C8 at a two-message conversation. -/
theorem c8_render_and_parse_witness :
    ([⟨"user", "hi"⟩, ⟨"AI", "yo"⟩] : List ConvMsg) ≠ [] ∧
    ((coachingHandler (some (.jarr [⟨"user", "hi"⟩, ⟨"AI", "yo"⟩]))
        (fun _ => .ok "1. a\n2. b")).status = 200 ∧
     (coachingHandler (some (.jarr [⟨"user", "hi"⟩, ⟨"AI", "yo"⟩]))
        (fun _ => .ok "1. a\n2. b")).promptSent
       = some (promptHeader
           ++ jsJoin "\n\n" (([⟨"user", "hi"⟩, ⟨"AI", "yo"⟩] : List ConvMsg).map
               (fun m => m.speaker ++ ": " ++ m.text))
           ++ promptFooter) ∧
     (coachingHandler (some (.jarr [⟨"user", "hi"⟩, ⟨"AI", "yo"⟩]))
        (fun _ => .ok "1. a\n2. b")).body
       = .ok (((numericSplit "1. a\n2. b").filter
           (fun s => !(jsTrim s == ""))).map jsTrim)) :=
  ⟨by decide,
   c8_render_and_parse [⟨"user", "hi"⟩, ⟨"AI", "yo"⟩] "1. a\n2. b"
     (by decide)⟩

/-- C9: whenever the uploaded file's content is read successfully, the
temporary file is deleted before any chunking, embedding, or upsert
step, so it is gone whatever those steps do. -/
theorem c9_upload_cleanup (embed : String → Except String (List Int))
    (now : Nat) (upsert : List UpsertRecord → Except String Unit)
    (origName : Option String) (text : String) :
    (knowledgeUpload embed now upsert true (.ok text) origName).fileDeleted
      = true := by
  unfold knowledgeUpload
  cases hbr : buildRecords "file" embed now origName 0 (jsSplit text "\n\n") with
  | error e => simp [hbr]
  | ok records =>
    simp only [hbr]
    cases hrb : (runBatches upsert (batchSlices records)).1 with
    | error e => simp [hrb]
    | ok x => simp [hrb]

/-- C10: `/ask` rejects every falsy question value — absent key, and
also the empty string — with the 400 error body, and the agent is never
reached. -/
theorem c10_falsy_question (question : Option JVal)
    (agent : String → Except String String)
    (h : question = none ∨ ∃ v, question = some v ∧ truthy v = false) :
    (askHandler question agent).status = 400 ∧
    (askHandler question agent).body
      = .err "Missing \x27question\x27 in request body" none ∧
    (askHandler question agent).agentCalled = false := by
  rcases h with rfl | ⟨v, rfl, hv⟩
  · exact ⟨rfl, rfl, rfl⟩
  · simp only [askHandler, hv]
    exact ⟨rfl, rfl, rfl⟩

/-- Witness for C10 at the empty-string question. -/
theorem c10_falsy_question_witness :
    (askHandler (some (.jstr "")) (fun _ => .ok "ans")).status = 400 ∧
    (askHandler (some (.jstr "")) (fun _ => .ok "ans")).body
      = .err "Missing \x27question\x27 in request body" none ∧
    (askHandler (some (.jstr "")) (fun _ => .ok "ans")).agentCalled
      = false :=
  c10_falsy_question (some (.jstr "")) (fun _ => .ok "ans")
    (Or.inr ⟨.jstr "", rfl, rfl⟩)

end SalesCoach
